import Mathlib

/-!
Verification development for the synthetic structural-causal-model data
generator and repeated-trial evaluation harness shared by the two scripts
`syn-entner.py` and `synthetic_high_dimension.py`.

Modelling conventions (shallow embedding):
* numpy arrays become `Np.MatQ`: an explicit `rows`/`cols` pair together with
  a total entry function `ℕ → ℕ → ℚ`; operations compute result shapes the
  way numpy does on well-shaped inputs.
* floating point is idealised as exact rational arithmetic.
* every random draw is an explicit oracle argument: `np.random.uniform(lo,hi,s)`
  becomes `lo + (hi-lo) * v i j` applied to a given unit-draw function `v`
  (numpy draws the unit sample in `[0,1)`); `np.random.normal(0,1,s)` becomes
  a given draw function used directly; `np.random.binomial(1,p)` thresholds a
  given unit draw against `p`; `np.random.choice(arange(k), p)` picks by
  inverse CDF from a given unit draw, after numpy's validity checks on `p`
  (size must equal `k`, entries nonnegative, total mass 1) — on failure the
  simulator returns `none`, modelling the raised `ValueError`.
* the transcendental `exp` used by `scipy.special.expit`/`softmax` is an
  abstract oracle `ex : ℚ → ℚ` threaded through the simulator
  (`expit z = 1/(1+exp(-z))`, `softmax` row-wise as `exp zⱼ / ∑ exp zₗ`).
-/

namespace Np

/-- A dense numeric table: explicit shape plus a total entry function,
modelling a numpy 2-D array. -/
structure MatQ where
  rows : ℕ
  cols : ℕ
  entry : ℕ → ℕ → ℚ

/-- `np.zeros((r,c))`. -/
def zerosM (r c : ℕ) : MatQ := ⟨r, c, fun _ _ => 0⟩

/-- `np.ones((r,c))`. -/
def onesM (r c : ℕ) : MatQ := ⟨r, c, fun _ _ => 1⟩

/-- One sample of `np.random.uniform(lo, hi)` from a unit draw `u ∈ [0,1)`:
numpy computes `lo + (hi - lo) * u` (also when `lo > hi`). -/
def uniformE (lo hi u : ℚ) : ℚ := lo + (hi - lo) * u

/-- `np.random.uniform(lo, hi, (r,c))` given the matrix `v` of unit draws. -/
def uniformM (lo hi : ℚ) (r c : ℕ) (v : ℕ → ℕ → ℚ) : MatQ :=
  ⟨r, c, fun i j => uniformE lo hi (v i j)⟩

/-- `np.random.normal(0, 1, (r,c))` given the matrix `g` of standard-normal
draws. -/
def normalM (r c : ℕ) (g : ℕ → ℕ → ℚ) : MatQ := ⟨r, c, g⟩

/-- `np.dot` of 2-D arrays: result shape `(A.rows, B.cols)`, summation over
`A.cols` inner products. -/
def dot (A B : MatQ) : MatQ :=
  ⟨A.rows, B.cols, fun i j => ∑ l ∈ Finset.range A.cols, A.entry i l * B.entry l j⟩

/-- `np.concatenate((A,B), axis=1)`. -/
def cat2 (A B : MatQ) : MatQ :=
  ⟨A.rows, A.cols + B.cols, fun i j =>
    if j < A.cols then A.entry i j else B.entry i (j - A.cols)⟩

/-- `np.concatenate((A,B,C), axis=1)`. -/
def cat3 (A B C : MatQ) : MatQ := cat2 (cat2 A B) C

/-- Elementwise sum (numpy `+` on same-shaped arrays). -/
def add (A B : MatQ) : MatQ := ⟨A.rows, A.cols, fun i j => A.entry i j + B.entry i j⟩

/-- Elementwise difference (numpy `-` on same-shaped arrays). -/
def sub (A B : MatQ) : MatQ := ⟨A.rows, A.cols, fun i j => A.entry i j - B.entry i j⟩

/-- Scalar multiple (numpy `c * A`). -/
def smul (c : ℚ) (A : MatQ) : MatQ := ⟨A.rows, A.cols, fun i j => c * A.entry i j⟩

/-- `np.mean(A)`: the scalar mean over all entries. -/
def mean (A : MatQ) : ℚ :=
  (∑ i ∈ Finset.range A.rows, ∑ j ∈ Finset.range A.cols, A.entry i j) /
    ((A.rows : ℚ) * (A.cols : ℚ))

/-- Broadcast subtraction of a scalar (numpy `A - c`). -/
def subScalar (A : MatQ) (c : ℚ) : MatQ := ⟨A.rows, A.cols, fun i j => A.entry i j - c⟩

/-- Column `j` of `np.mean(A, axis=0)`. -/
def colMean (A : MatQ) (j : ℕ) : ℚ :=
  (∑ i ∈ Finset.range A.rows, A.entry i j) / (A.rows : ℚ)

/-- `A - np.mean(A, axis=0)`: broadcast subtraction of the column means. -/
def subColMean (A : MatQ) : MatQ :=
  ⟨A.rows, A.cols, fun i j => A.entry i j - colMean A j⟩

/-- `scipy.special.expit z = 1 / (1 + exp (-z))`, with `exp` abstract. -/
def expitE (ex : ℚ → ℚ) (z : ℚ) : ℚ := 1 / (1 + ex (-z))

/-- Elementwise `expit` on a matrix. -/
def expitM (ex : ℚ → ℚ) (A : MatQ) : MatQ :=
  ⟨A.rows, A.cols, fun i j => expitE ex (A.entry i j)⟩

/-- `np.random.binomial(1, p)` on a matrix of probabilities, given the matrix
`w` of unit draws: entry is `1` exactly when the draw falls below `p`. -/
def binom1 (p : MatQ) (w : ℕ → ℕ → ℚ) : MatQ :=
  ⟨p.rows, p.cols, fun i j => if w i j < p.entry i j then 1 else 0⟩

/-- `scipy.special.softmax(A, axis=1)`: row-wise `exp zⱼ / ∑ₗ exp zₗ`
(scipy's max-shift is an exact-arithmetic no-op for a true exponential). -/
def softmaxRow (ex : ℚ → ℚ) (A : MatQ) : MatQ :=
  ⟨A.rows, A.cols, fun i j =>
    ex (A.entry i j) / ∑ l ∈ Finset.range A.cols, ex (A.entry i l)⟩

/-- Inverse-CDF pick among `m` categories from probabilities `p` and a unit
draw `u`; the last category is the clamp, so the result is `< m` for `m ≥ 1`. -/
def pickIdx : ℕ → (ℕ → ℚ) → ℚ → ℕ
  | 0, _, _ => 0
  | 1, _, _ => 0
  | (m+2), p, u =>
    if u < p 0 then 0 else pickIdx (m+1) (fun j => p (j+1)) (u - p 0) + 1

/-- The validity checks `np.random.choice(np.arange k, p)` performs on its
probability vector of length `plen`: the sizes must agree, the entries must be
nonnegative and the total mass must be 1; otherwise a `ValueError` is raised. -/
def choiceOK (k plen : ℕ) (p : ℕ → ℚ) : Bool :=
  decide (plen = k) && decide ((∑ j ∈ Finset.range plen, p j) = 1) &&
    decide (∀ j < plen, 0 ≤ p j)

/-- Round to the nearest integer, ties to even (numpy's rounding mode). -/
def roundHalfEven (q : ℚ) : ℤ :=
  if q - ⌊q⌋ < 1/2 then ⌊q⌋
  else if (1:ℚ)/2 < q - ⌊q⌋ then ⌊q⌋ + 1
  else if 2 ∣ ⌊q⌋ then ⌊q⌋ else ⌊q⌋ + 1

/-- `np.round(q, 6)`. -/
def round6 (q : ℚ) : ℚ := (roundHalfEven (q * 1000000) : ℚ) / 1000000

/-- `sklearn.model_selection.train_test_split` test-set size for
`test_size=0.2`: `ceil(0.2 * n)`. -/
def testCount (n : ℕ) : ℕ := (⌈(n : ℚ) * (1/5)⌉).toNat

/-- The test part of a shuffled split: rows `perm 0, …, perm (nte-1)`. -/
def takeTest (perm : ℕ → ℕ) (nte : ℕ) (A : MatQ) : MatQ :=
  ⟨nte, A.cols, fun i j => A.entry (perm i) j⟩

/-- The train part of a shuffled split: rows `perm nte, …, perm (n-1)`. -/
def takeTrain (perm : ℕ → ℕ) (n nte : ℕ) (A : MatQ) : MatQ :=
  ⟨n - nte, A.cols, fun i j => A.entry (perm (nte + i)) j⟩

end Np

open Np in
/-- Result record of `get_data`, in the source's return order
`x1,x2,x3,t,e,y,y_0,y_1`. -/
structure SimData where
  x1 : MatQ
  x2 : MatQ
  x3 : MatQ
  t : MatQ
  e : MatQ
  y : MatQ
  y_0 : MatQ
  y_1 : MatQ

open Np in
/-- Result record of `get_train_test_data`, in the source's return order. -/
structure SplitData where
  x_train : MatQ
  t_train : MatQ
  y_train : MatQ
  e_train : MatQ
  y_0_train : MatQ
  y_1_train : MatQ
  x_test : MatQ
  t_test : MatQ
  y_test : MatQ
  e_test : MatQ
  y_0_test : MatQ
  y_1_test : MatQ
  true_ate : ℚ

namespace SynEntner

open Np

/-- `get_u` of `syn-entner.py` (lines 42-47): four uniform-[1,2) latent
matrices of shapes `(n,1)`, `(n,d)`, `(n,d)`, `(n,d)`, given the unit draws
`v1..v4`. -/
def get_u (n d : ℕ) (v1 v2 v3 v4 : ℕ → ℕ → ℚ) : MatQ × MatQ × MatQ × MatQ :=
  (uniformM 1 2 n 1 v1, uniformM 1 2 n d v2, uniformM 1 2 n d v3,
    uniformM 1 2 n d v4)

/-- `get_theta` of `syn-entner.py` (lines 49-59), given the unit draws for the
six coefficient matrices.  The `number_environments` argument `k` is accepted
but never used, exactly as in the source.  `theta6` concatenates a
uniform-[1,2) block, a zero block and a `np.random.uniform(-1.0,-2.0,...)`
block, with one row when `use_t_in_e = 0` and two rows otherwise. -/
def get_theta (d use_t_in_e k : ℕ) (v1 v2 v3 v4 v5 v6a v6c : ℕ → ℕ → ℚ) :
    MatQ × MatQ × MatQ × MatQ × MatQ × MatQ :=
  (uniformM 1 2 (d + 1) 1 v1,
   uniformM 1 2 (d * 2 + 1) d v2,
   uniformM 1 2 (d * 2) d v3,
   uniformM 1 2 (d * 2 + 1) 1 v4,
   uniformM 1 2 2 1 v5,
   if use_t_in_e = 0 then
     cat3 (uniformM 1 2 1 1 v6a) (zerosM 1 1) (uniformM (-1) (-2) 1 1 v6c)
   else
     cat3 (uniformM 1 2 2 1 v6a) (zerosM 2 1) (uniformM (-1) (-2) 2 1 v6c))

/-- `get_data` of `syn-entner.py` (lines 61-81).  All random draws are
explicit oracle arguments (`g1,g2,g3,gY` standard-normal draw matrices,
`wT` unit draws for the Bernoulli treatment, `wE` unit draws for the per-row
environment choice) and `ex` is the abstract exponential used by
`expit`/`softmax`.  The per-row `np.random.choice(np.arange k, p)` calls
raise (return `none`) unless every row's probability vector passes numpy's
validity checks, in particular that its length — always 3 here — equals `k`. -/
def get_data (ex : ℚ → ℚ) (u1 u2 u3 u4 theta1 theta2 theta3 theta4 theta5
    theta6 : MatQ) (n d use_t_in_e k : ℕ) (g1 g2 g3 : ℕ → ℕ → ℚ)
    (wT : ℕ → ℕ → ℚ) (wE : ℕ → ℚ) (gY : ℕ → ℕ → ℚ) : Option SimData :=
  let x1 := add (dot (cat2 u1 u2) theta1) (smul (1/10) (normalM n 1 g1))
  let x2 := add (dot (cat3 x1 u2 u3) theta2) (smul (1/10) (normalM n d g2))
  let x3 := add (dot (cat2 u3 u4) theta3) (smul (1/10) (normalM n d g3))
  let tz := dot (cat2 u1 x1) theta5
  let t := binom1 (expitM ex (subScalar tz (mean tz))) wT
  let probabilites :=
    if use_t_in_e = 0 then softmaxRow ex (subColMean (dot x1 theta6))
    else softmaxRow ex (subColMean (dot (cat2 x1 t) theta6))
  if (List.range probabilites.rows).all
      (fun i => choiceOK k probabilites.cols (fun j => probabilites.entry i j))
  then
    let e : MatQ := ⟨n, 1, fun i _ =>
      if i < probabilites.rows then
        ((pickIdx k (fun j => probabilites.entry i j) (wE i) : ℕ) : ℚ)
      else 0⟩
    let noise := smul (1/10) (normalM n 1 gY)
    let y := add (dot (cat3 x2 u4 t) theta4) noise
    let y_0 := add (dot (cat3 x2 u4 (zerosM n 1)) theta4) noise
    let y_1 := add (dot (cat3 x2 u4 (onesM n 1)) theta4) noise
    some ⟨x1, x2, x3, t, e, y, y_0, y_1⟩
  else none

/-- `get_train_test_data` of `syn-entner.py` (lines 83-105): sample latents
and coefficients, simulate, compute `true_ate = round(mean(y_1 - y_0), 6)`
over the full population, then split every table 80/20 by one shared shuffle
`perm` (the split's random permutation of the row indices; the test block is
the first `ceil(0.2*n)` permuted rows, as in sklearn).  sklearn's
`train_test_split` raises a `ValueError` when the resulting train partition
would be empty (`n_train = n - ceil(0.2*n) = 0`, e.g. at `n = 1`); that
raise is modelled by returning `none`. -/
def get_train_test_data (ex : ℚ → ℚ)
    (uv1 uv2 uv3 uv4 tv1 tv2 tv3 tv4 tv5 tv6a tv6c : ℕ → ℕ → ℚ)
    (g1 g2 g3 : ℕ → ℕ → ℚ) (wT : ℕ → ℕ → ℚ) (wE : ℕ → ℚ)
    (gY : ℕ → ℕ → ℚ) (perm : ℕ → ℕ)
    (n d use_t_in_e k : ℕ) : Option SplitData :=
  let u := get_u n d uv1 uv2 uv3 uv4
  let th := get_theta d use_t_in_e k tv1 tv2 tv3 tv4 tv5 tv6a tv6c
  match get_data ex u.1 u.2.1 u.2.2.1 u.2.2.2 th.1 th.2.1 th.2.2.1 th.2.2.2.1
      th.2.2.2.2.1 th.2.2.2.2.2 n d use_t_in_e k g1 g2 g3 wT wE gY with
  | none => none
  | some s =>
    let true_ate := round6 (mean (sub s.y_1 s.y_0))
    let features := cat3 s.x1 s.x2 s.x3
    let ns := features.rows
    let nte := testCount ns
    if ns - nte = 0 then none
    else some ⟨takeTrain perm ns nte features, takeTrain perm ns nte s.t,
      takeTrain perm ns nte s.y, takeTrain perm ns nte s.e,
      takeTrain perm ns nte s.y_0, takeTrain perm ns nte s.y_1,
      takeTest perm nte features, takeTest perm nte s.t,
      takeTest perm nte s.y, takeTest perm nte s.e,
      takeTest perm nte s.y_0, takeTest perm nte s.y_1, true_ate⟩

/-- The tracked quantities of `main` in `syn-entner.py`: the three result
matrices allocated at lines 117-119. -/
def tracked_quantities : List String :=
  ["pvalue_empty", "pvalue_x3", "pvalue_x2x3"]

/-- The quantities `main` in `syn-entner.py` persists with `np.savetxt`
(lines 139-141): all three tracked quantities. -/
def saved_quantities : List String :=
  ["pvalue_empty", "pvalue_x3", "pvalue_x2x3"]

end SynEntner

namespace SynHigh

open Np

/-- `get_u` of `synthetic_high_dimension.py` (lines 28-33). -/
def get_u (n d : ℕ) (v1 v2 v3 v4 : ℕ → ℕ → ℚ) : MatQ × MatQ × MatQ × MatQ :=
  (uniformM 1 2 n 1 v1, uniformM 1 2 n d v2, uniformM 1 2 n d v3,
    uniformM 1 2 n d v4)

/-- `get_theta` of `synthetic_high_dimension.py` (lines 35-45). -/
def get_theta (d use_t_in_e k : ℕ) (v1 v2 v3 v4 v5 v6a v6c : ℕ → ℕ → ℚ) :
    MatQ × MatQ × MatQ × MatQ × MatQ × MatQ :=
  (uniformM 1 2 (d + 1) 1 v1,
   uniformM 1 2 (d * 2 + 1) d v2,
   uniformM 1 2 (d * 2) d v3,
   uniformM 1 2 (d * 2 + 1) 1 v4,
   uniformM 1 2 2 1 v5,
   if use_t_in_e = 0 then
     cat3 (uniformM 1 2 1 1 v6a) (zerosM 1 1) (uniformM (-1) (-2) 1 1 v6c)
   else
     cat3 (uniformM 1 2 2 1 v6a) (zerosM 2 1) (uniformM (-1) (-2) 2 1 v6c))

/-- `get_data` of `synthetic_high_dimension.py` (lines 47-67). -/
def get_data (ex : ℚ → ℚ) (u1 u2 u3 u4 theta1 theta2 theta3 theta4 theta5
    theta6 : MatQ) (n d use_t_in_e k : ℕ) (g1 g2 g3 : ℕ → ℕ → ℚ)
    (wT : ℕ → ℕ → ℚ) (wE : ℕ → ℚ) (gY : ℕ → ℕ → ℚ) : Option SimData :=
  let x1 := add (dot (cat2 u1 u2) theta1) (smul (1/10) (normalM n 1 g1))
  let x2 := add (dot (cat3 x1 u2 u3) theta2) (smul (1/10) (normalM n d g2))
  let x3 := add (dot (cat2 u3 u4) theta3) (smul (1/10) (normalM n d g3))
  let tz := dot (cat2 u1 x1) theta5
  let t := binom1 (expitM ex (subScalar tz (mean tz))) wT
  let probabilites :=
    if use_t_in_e = 0 then softmaxRow ex (subColMean (dot x1 theta6))
    else softmaxRow ex (subColMean (dot (cat2 x1 t) theta6))
  if (List.range probabilites.rows).all
      (fun i => choiceOK k probabilites.cols (fun j => probabilites.entry i j))
  then
    let e : MatQ := ⟨n, 1, fun i _ =>
      if i < probabilites.rows then
        ((pickIdx k (fun j => probabilites.entry i j) (wE i) : ℕ) : ℚ)
      else 0⟩
    let noise := smul (1/10) (normalM n 1 gY)
    let y := add (dot (cat3 x2 u4 t) theta4) noise
    let y_0 := add (dot (cat3 x2 u4 (zerosM n 1)) theta4) noise
    let y_1 := add (dot (cat3 x2 u4 (onesM n 1)) theta4) noise
    some ⟨x1, x2, x3, t, e, y, y_0, y_1⟩
  else none

/-- `get_train_test_data` of `synthetic_high_dimension.py` (lines 69-91).
As in `syn-entner.py`, sklearn's `train_test_split` raise on an empty train
partition is modelled by returning `none`. -/
def get_train_test_data (ex : ℚ → ℚ)
    (uv1 uv2 uv3 uv4 tv1 tv2 tv3 tv4 tv5 tv6a tv6c : ℕ → ℕ → ℚ)
    (g1 g2 g3 : ℕ → ℕ → ℚ) (wT : ℕ → ℕ → ℚ) (wE : ℕ → ℚ)
    (gY : ℕ → ℕ → ℚ) (perm : ℕ → ℕ)
    (n d use_t_in_e k : ℕ) : Option SplitData :=
  let u := get_u n d uv1 uv2 uv3 uv4
  let th := get_theta d use_t_in_e k tv1 tv2 tv3 tv4 tv5 tv6a tv6c
  match get_data ex u.1 u.2.1 u.2.2.1 u.2.2.2 th.1 th.2.1 th.2.2.1 th.2.2.2.1
      th.2.2.2.2.1 th.2.2.2.2.2 n d use_t_in_e k g1 g2 g3 wT wE gY with
  | none => none
  | some s =>
    let true_ate := round6 (mean (sub s.y_1 s.y_0))
    let features := cat3 s.x1 s.x2 s.x3
    let ns := features.rows
    let nte := testCount ns
    if ns - nte = 0 then none
    else some ⟨takeTrain perm ns nte features, takeTrain perm ns nte s.t,
      takeTrain perm ns nte s.y, takeTrain perm ns nte s.e,
      takeTrain perm ns nte s.y_0, takeTrain perm ns nte s.y_1,
      takeTest perm nte features, takeTest perm nte s.t,
      takeTest perm nte s.y, takeTest perm nte s.e,
      takeTest perm nte s.y_0, takeTest perm nte s.y_1, true_ate⟩

/-- The tracked quantities of `main` in `synthetic_high_dimension.py`: the
five result matrices allocated at lines 108-112. -/
def tracked_quantities : List String :=
  ["effect_true", "effect_oracle", "effect_baseline",
   "effect_irm_control", "effect_irm_treatment"]

/-- The quantities `main` in `synthetic_high_dimension.py` persists with
`np.savetxt` (lines 133-136): only four of the five tracked quantities —
`effect_oracle` is filled (line 121) and used in the console summaries
(lines 141, 146) but never written to a file. -/
def saved_quantities : List String :=
  ["effect_true", "effect_baseline", "effect_irm_control",
   "effect_irm_treatment"]

end SynHigh

namespace Trial

open Np

/-- Write collaborator output `v` into cell `(r, i)` of a result matrix
(the assignment `matrix[r, i] = v` in `main`). -/
def updateCell (M : MatQ) (r i : ℕ) (v : ℚ) : MatQ :=
  ⟨M.rows, M.cols, fun a b => if a = r ∧ b = i then v else M.entry a b⟩

/-- The inner loop of `main` for repetition `r`: fill cells
`(r,0), …, (r,m-1)` with the collaborator outputs `cell r i`. -/
def fillInner (cell : ℕ → ℕ → ℚ) (r : ℕ) (M : MatQ) : ℕ → MatQ
  | 0 => M
  | m + 1 => updateCell (fillInner cell r M m) r m (cell r m)

/-- The outer loop of `main` over the first `rr` repetitions, starting from
`np.zeros((nr, ngrid))`. -/
def fillOuter (nr ngrid : ℕ) (cell : ℕ → ℕ → ℚ) : ℕ → MatQ
  | 0 => zerosM nr ngrid
  | rr + 1 => fillInner cell rr (fillOuter nr ngrid cell rr) ngrid

/-- One tracked quantity's result matrix after `main`'s double loop:
`nr` repetitions over a dimension grid of length `ngrid`, where `cell r i` is
the scalar the external collaborator returns for repetition `r` and grid
index `i`. -/
def runTrials (nr ngrid : ℕ) (cell : ℕ → ℕ → ℚ) : MatQ :=
  fillOuter nr ngrid cell nr

/-- Column `j` of `np.std(M, axis=0)` with divisor `M.rows - ddof`
(numpy default `ddof = 0`), given the abstract square root `sq`. -/
def stdAxis0 (sq : ℚ → ℚ) (ddof : ℕ) (M : MatQ) (j : ℕ) : ℚ :=
  sq ((∑ r ∈ Finset.range M.rows, (M.entry r j - colMean M j)^2) /
    ((M.rows - ddof : ℕ) : ℚ))

/-- The reported standard error `np.std(M, axis=0) / np.sqrt nr` of `main`. -/
def stdErrRep (sq : ℚ → ℚ) (M : MatQ) (nr j : ℕ) : ℚ :=
  stdAxis0 sq 0 M j / sq ((nr : ℕ) : ℚ)

/-- Column `j`'s mean of squares, `(∑ r, M[r,j]^2) / M.rows`. -/
def meanSq (M : MatQ) (j : ℕ) : ℚ :=
  (∑ r ∈ Finset.range M.rows, (M.entry r j)^2) / (M.rows : ℚ)

/-- Population (ddof = 0) variance of column `j`, in the textbook
mean-of-squares-minus-squared-mean form. -/
def popVar (M : MatQ) (j : ℕ) : ℚ := meanSq M j - (colMean M j)^2

/-- `np.savetxt(file, M, delimiter=",")`: the file holds exactly the rows of
`M`, one comma-separated line per row, no header line. -/
def savetxtLines (M : MatQ) : List (List ℚ) :=
  (List.range M.rows).map (fun r => (List.range M.cols).map (fun c => M.entry r c))

end Trial

namespace Np

/-- Multiplying a matrix extended by an all-ones column against `θ` differs
from extending by an all-zeros column by exactly the `θ`-row at the appended
position. -/
lemma dot_cat_ones_zeros_diff (M θ : MatQ) (n : ℕ) (i j : ℕ) :
    (dot (cat2 M (onesM n 1)) θ).entry i j -
      (dot (cat2 M (zerosM n 1)) θ).entry i j = θ.entry M.cols j := by
  simp only [dot, cat2, onesM, zerosM]
  rw [Finset.sum_range_succ, Finset.sum_range_succ]
  have h1 : ∀ l ∈ Finset.range M.cols,
      (if l < M.cols then M.entry i l else (1:ℚ)) * θ.entry l j
        = (if l < M.cols then M.entry i l else (0:ℚ)) * θ.entry l j := by
    intro l hl
    rw [Finset.mem_range] at hl
    simp [hl]
  rw [Finset.sum_congr rfl h1]
  simp

end Np

namespace SynEntner

open Np

/-- Inversion of a successful `get_data` call: the success condition held and
the output record is exactly the structural-equation computation of the
source, step by step. -/
lemma get_data_inv {ex : ℚ → ℚ} {u1 u2 u3 u4 t1 t2 t3 t4 t5 t6 : MatQ}
    {n d use_t_in_e k : ℕ} {g1 g2 g3 wT : ℕ → ℕ → ℚ} {wE : ℕ → ℚ}
    {gY : ℕ → ℕ → ℚ} {out : SimData}
    (h : get_data ex u1 u2 u3 u4 t1 t2 t3 t4 t5 t6 n d use_t_in_e k
      g1 g2 g3 wT wE gY = some out) :
    ∃ x1 x2 x3 t pr : MatQ,
      x1 = add (dot (cat2 u1 u2) t1) (smul (1/10) (normalM n 1 g1)) ∧
      x2 = add (dot (cat3 x1 u2 u3) t2) (smul (1/10) (normalM n d g2)) ∧
      x3 = add (dot (cat2 u3 u4) t3) (smul (1/10) (normalM n d g3)) ∧
      t = binom1 (expitM ex (subScalar (dot (cat2 u1 x1) t5)
        (mean (dot (cat2 u1 x1) t5)))) wT ∧
      pr = (if use_t_in_e = 0 then softmaxRow ex (subColMean (dot x1 t6))
        else softmaxRow ex (subColMean (dot (cat2 x1 t) t6))) ∧
      (List.range pr.rows).all
        (fun i => choiceOK k pr.cols (fun j => pr.entry i j)) = true ∧
      out = ⟨x1, x2, x3, t,
        ⟨n, 1, fun i _ => if i < pr.rows then
          ((pickIdx k (fun j => pr.entry i j) (wE i) : ℕ) : ℚ) else 0⟩,
        add (dot (cat3 x2 u4 t) t4) (smul (1/10) (normalM n 1 gY)),
        add (dot (cat3 x2 u4 (zerosM n 1)) t4) (smul (1/10) (normalM n 1 gY)),
        add (dot (cat3 x2 u4 (onesM n 1)) t4) (smul (1/10) (normalM n 1 gY))⟩ := by
  simp only [get_data] at h
  rw [Option.ite_none_right_eq_some] at h
  exact ⟨_, _, _, _, _, rfl, rfl, rfl, rfl, rfl, h.1, (Option.some.inj h.2).symm⟩

/-- For every successful `get_data` result, the potential-outcome difference
at any row is the `theta4` row just past the `x2,u4` block, independent of
every noise oracle. -/
lemma get_data_ydiff {ex : ℚ → ℚ} {u1 u2 u3 u4 t1 t2 t3 t4 t5 t6 : MatQ}
    {n d use_t_in_e k : ℕ} {g1 g2 g3 wT : ℕ → ℕ → ℚ} {wE : ℕ → ℚ}
    {gY : ℕ → ℕ → ℚ} {out : SimData}
    (h : get_data ex u1 u2 u3 u4 t1 t2 t3 t4 t5 t6 n d use_t_in_e k
      g1 g2 g3 wT wE gY = some out) (i j : ℕ) :
    out.y_1.entry i j - out.y_0.entry i j = t4.entry (t2.cols + u4.cols) j := by
  obtain ⟨x1, x2, x3, t, pr, hx1, hx2, hx3, ht, hpr, hall, rfl⟩ := get_data_inv h
  have hd := dot_cat_ones_zeros_diff (cat2 x2 u4) t4 n i j
  have hc : (cat2 x2 u4).cols = t2.cols + u4.cols := by rw [hx2]; rfl
  show (add (dot (cat2 (cat2 x2 u4) (onesM n 1)) t4) _).entry i j -
    (add (dot (cat2 (cat2 x2 u4) (zerosM n 1)) t4) _).entry i j = _
  simp only [add]
  rw [hc] at hd
  linarith [hd]

end SynEntner

/-- The all-zero draw oracle used by concrete witnesses. -/
def zf : ℕ → ℕ → ℚ := fun _ _ => 0

/-- The all-zero per-row draw oracle used by concrete witnesses. -/
def zf1 : ℕ → ℚ := fun _ => 0

/-- A concrete (constant) exponential oracle used by concrete witnesses. -/
def exOne : ℚ → ℚ := fun _ => 1

namespace SynEntner

open Np

/-- C1: for every row `i`, the potential-outcome difference
`y_1[i] - y_0[i]` produced by the simulator `get_data` (on latents from
`get_u` and coefficients from `get_theta`) equals the last entry
`theta4[d*2, 0]` of `theta4` (the treatment coefficient) times 1: the shared
noise draw `gY` is added identically to `y`, `y_0` and `y_1` and cancels
exactly, so `y_1 - y_0` is deterministic given `theta4` and independent of
every noise draw. -/
theorem C1_y1_minus_y0_eq_theta4_last
    (ex : ℚ → ℚ) (a1 a2 a3 a4 b1 b2 b3 b4 b5 b6a b6c : ℕ → ℕ → ℚ)
    (g1 g2 g3 wT : ℕ → ℕ → ℚ) (wE : ℕ → ℚ) (gY : ℕ → ℕ → ℚ)
    (n d use_t_in_e k : ℕ) (out : SimData)
    (h : get_data ex (get_u n d a1 a2 a3 a4).1 (get_u n d a1 a2 a3 a4).2.1
      (get_u n d a1 a2 a3 a4).2.2.1 (get_u n d a1 a2 a3 a4).2.2.2
      (get_theta d use_t_in_e k b1 b2 b3 b4 b5 b6a b6c).1
      (get_theta d use_t_in_e k b1 b2 b3 b4 b5 b6a b6c).2.1
      (get_theta d use_t_in_e k b1 b2 b3 b4 b5 b6a b6c).2.2.1
      (get_theta d use_t_in_e k b1 b2 b3 b4 b5 b6a b6c).2.2.2.1
      (get_theta d use_t_in_e k b1 b2 b3 b4 b5 b6a b6c).2.2.2.2.1
      (get_theta d use_t_in_e k b1 b2 b3 b4 b5 b6a b6c).2.2.2.2.2
      n d use_t_in_e k g1 g2 g3 wT wE gY = some out)
    (i : ℕ) :
    out.y_1.entry i 0 - out.y_0.entry i 0
      = (get_theta d use_t_in_e k b1 b2 b3 b4 b5 b6a b6c).2.2.2.1.entry
          (d * 2) 0 := by
  have hy := get_data_ydiff h i 0
  have hcc : ((get_theta d use_t_in_e k b1 b2 b3 b4 b5 b6a b6c).2.1).cols
      + ((get_u n d a1 a2 a3 a4).2.2.2).cols = d * 2 := by
    show d + d = d * 2
    omega
  rw [hy, hcc]

/-- Witness for C1 at `n = 1`, `d = 1`, `use_t_in_e = 1`, `k = 3`, all-zero
draws and the constant-one exponential oracle. -/
theorem C1_y1_minus_y0_eq_theta4_last_witness : ∃ out : SimData,
    get_data exOne (get_u 1 1 zf zf zf zf).1 (get_u 1 1 zf zf zf zf).2.1
      (get_u 1 1 zf zf zf zf).2.2.1 (get_u 1 1 zf zf zf zf).2.2.2
      (get_theta 1 1 3 zf zf zf zf zf zf zf).1
      (get_theta 1 1 3 zf zf zf zf zf zf zf).2.1
      (get_theta 1 1 3 zf zf zf zf zf zf zf).2.2.1
      (get_theta 1 1 3 zf zf zf zf zf zf zf).2.2.2.1
      (get_theta 1 1 3 zf zf zf zf zf zf zf).2.2.2.2.1
      (get_theta 1 1 3 zf zf zf zf zf zf zf).2.2.2.2.2
      1 1 1 3 zf zf zf zf zf1 zf = some out ∧
    out.y_1.entry 0 0 - out.y_0.entry 0 0
      = (get_theta 1 1 3 zf zf zf zf zf zf zf).2.2.2.1.entry 2 0 := by
  have hs : (get_data exOne (get_u 1 1 zf zf zf zf).1 (get_u 1 1 zf zf zf zf).2.1
      (get_u 1 1 zf zf zf zf).2.2.1 (get_u 1 1 zf zf zf zf).2.2.2
      (get_theta 1 1 3 zf zf zf zf zf zf zf).1
      (get_theta 1 1 3 zf zf zf zf zf zf zf).2.1
      (get_theta 1 1 3 zf zf zf zf zf zf zf).2.2.1
      (get_theta 1 1 3 zf zf zf zf zf zf zf).2.2.2.1
      (get_theta 1 1 3 zf zf zf zf zf zf zf).2.2.2.2.1
      (get_theta 1 1 3 zf zf zf zf zf zf zf).2.2.2.2.2
      1 1 1 3 zf zf zf zf zf1 zf).isSome = true := by
    norm_num [get_data, get_u, get_theta, exOne, zf, zf1, Np.softmaxRow,
      Np.subColMean, Np.colMean, Np.dot, Np.cat2, Np.cat3, Np.add,
      Np.smul, Np.normalM, Np.uniformM, Np.uniformE, Np.binom1, Np.expitM,
      Np.expitE, Np.subScalar, Np.mean, Np.zerosM, Np.onesM, Np.choiceOK,
      List.range_succ, Finset.sum_range_succ]
  refine ⟨Option.get _ hs, (Option.some_get hs).symm, ?_⟩
  exact C1_y1_minus_y0_eq_theta4_last exOne zf zf zf zf zf zf zf zf zf zf zf
    zf zf zf zf zf1 zf 1 1 1 3 _ (Option.some_get hs).symm 0

/-- C2: for every `n ≥ 10` and `d ≥ 1`, the simulator `get_data`, given
latents and coefficients of the shapes produced by `get_u` and `get_theta`,
returns `x1` of shape `(n,1)`, `x2` and `x3` of shape `(n,d)`, and
`t`, `e`, `y`, `y_0`, `y_1` each of shape `(n,1)`. -/
theorem C2_get_data_shapes
    (ex : ℚ → ℚ) (a1 a2 a3 a4 b1 b2 b3 b4 b5 b6a b6c : ℕ → ℕ → ℚ)
    (g1 g2 g3 wT : ℕ → ℕ → ℚ) (wE : ℕ → ℚ) (gY : ℕ → ℕ → ℚ)
    (n d use_t_in_e k : ℕ) (out : SimData) (hn : 10 ≤ n) (hd : 1 ≤ d)
    (h : get_data ex (get_u n d a1 a2 a3 a4).1 (get_u n d a1 a2 a3 a4).2.1
      (get_u n d a1 a2 a3 a4).2.2.1 (get_u n d a1 a2 a3 a4).2.2.2
      (get_theta d use_t_in_e k b1 b2 b3 b4 b5 b6a b6c).1
      (get_theta d use_t_in_e k b1 b2 b3 b4 b5 b6a b6c).2.1
      (get_theta d use_t_in_e k b1 b2 b3 b4 b5 b6a b6c).2.2.1
      (get_theta d use_t_in_e k b1 b2 b3 b4 b5 b6a b6c).2.2.2.1
      (get_theta d use_t_in_e k b1 b2 b3 b4 b5 b6a b6c).2.2.2.2.1
      (get_theta d use_t_in_e k b1 b2 b3 b4 b5 b6a b6c).2.2.2.2.2
      n d use_t_in_e k g1 g2 g3 wT wE gY = some out) :
    out.x1.rows = n ∧ out.x1.cols = 1 ∧
    out.x2.rows = n ∧ out.x2.cols = d ∧
    out.x3.rows = n ∧ out.x3.cols = d ∧
    out.t.rows = n ∧ out.t.cols = 1 ∧
    out.e.rows = n ∧ out.e.cols = 1 ∧
    out.y.rows = n ∧ out.y.cols = 1 ∧
    out.y_0.rows = n ∧ out.y_0.cols = 1 ∧
    out.y_1.rows = n ∧ out.y_1.cols = 1 := by
  obtain ⟨x1, x2, x3, t, pr, rfl, rfl, rfl, rfl, rfl, hall, rfl⟩ :=
    get_data_inv h
  exact ⟨rfl, rfl, rfl, rfl, rfl, rfl, rfl, rfl, rfl, rfl, rfl, rfl, rfl,
    rfl, rfl, rfl⟩

/-- Witness for C2 at `n = 10`, `d = 1`, `use_t_in_e = 1`, `k = 3`, all-zero
draws and the constant-one exponential oracle. -/
theorem C2_get_data_shapes_witness : ∃ out : SimData,
    get_data exOne (get_u 10 1 zf zf zf zf).1 (get_u 10 1 zf zf zf zf).2.1
      (get_u 10 1 zf zf zf zf).2.2.1 (get_u 10 1 zf zf zf zf).2.2.2
      (get_theta 1 1 3 zf zf zf zf zf zf zf).1
      (get_theta 1 1 3 zf zf zf zf zf zf zf).2.1
      (get_theta 1 1 3 zf zf zf zf zf zf zf).2.2.1
      (get_theta 1 1 3 zf zf zf zf zf zf zf).2.2.2.1
      (get_theta 1 1 3 zf zf zf zf zf zf zf).2.2.2.2.1
      (get_theta 1 1 3 zf zf zf zf zf zf zf).2.2.2.2.2
      10 1 1 3 zf zf zf zf zf1 zf = some out ∧
    out.x1.rows = 10 ∧ out.x2.cols = 1 ∧ out.e.rows = 10 ∧
      out.y_1.cols = 1 := by
  have hs : (get_data exOne (get_u 10 1 zf zf zf zf).1
      (get_u 10 1 zf zf zf zf).2.1
      (get_u 10 1 zf zf zf zf).2.2.1 (get_u 10 1 zf zf zf zf).2.2.2
      (get_theta 1 1 3 zf zf zf zf zf zf zf).1
      (get_theta 1 1 3 zf zf zf zf zf zf zf).2.1
      (get_theta 1 1 3 zf zf zf zf zf zf zf).2.2.1
      (get_theta 1 1 3 zf zf zf zf zf zf zf).2.2.2.1
      (get_theta 1 1 3 zf zf zf zf zf zf zf).2.2.2.2.1
      (get_theta 1 1 3 zf zf zf zf zf zf zf).2.2.2.2.2
      10 1 1 3 zf zf zf zf zf1 zf).isSome = true := by
    norm_num [get_data, get_u, get_theta, exOne, zf, zf1, Np.softmaxRow,
      Np.subColMean, Np.colMean, Np.dot, Np.cat2, Np.cat3, Np.add,
      Np.smul, Np.normalM, Np.uniformM, Np.uniformE, Np.binom1, Np.expitM,
      Np.expitE, Np.subScalar, Np.mean, Np.zerosM, Np.onesM, Np.choiceOK,
      List.range_succ, Finset.sum_range_succ]
  refine ⟨Option.get _ hs, (Option.some_get hs).symm, ?_⟩
  obtain ⟨h1, -, -, h2, -, -, -, -, h3, -, -, -, -, -, -, h4⟩ :=
    C2_get_data_shapes exOne zf zf zf zf zf zf zf zf zf zf zf
      zf zf zf zf zf1 zf 10 1 1 3 _ (by decide) (by decide)
      (Option.some_get hs).symm
  exact ⟨h1, h2, h3, h4⟩

end SynEntner

namespace Np

/-- A `np.random.uniform(1.0, 2.0)` sample lies in `[1, 2)` when the unit
draw lies in `[0, 1)`. -/
lemma uniformE_unit_range {u : ℚ} (h0 : 0 ≤ u) (h1 : u < 1) :
    1 ≤ uniformE 1 2 u ∧ uniformE 1 2 u < 2 := by
  unfold uniformE
  constructor <;> nlinarith

/-- A `np.random.uniform(-1.0, -2.0)` sample — numpy's reversed bound
order — lies in `(-2, -1]` when the unit draw lies in `[0, 1)`: the sample
is `-1 + ((-2) - (-1)) * u = -1 - u`. -/
lemma uniformE_neg_range {u : ℚ} (h0 : 0 ≤ u) (h1 : u < 1) :
    -2 < uniformE (-1) (-2) u ∧ uniformE (-1) (-2) u ≤ -1 := by
  unfold uniformE
  constructor <;> nlinarith

end Np

namespace SynEntner

open Np

/-- C3: in the coefficient sampler `get_theta`, every entry of
`theta1..theta5` and of `theta6`'s first block is an i.i.d.
`uniform(1.0, 2.0)` sample (in `[1,2)` for unit draws in `[0,1)`); the only
drawn exception is `theta6`'s last block, a `uniform(-1.0, -2.0)` sample
(numpy's reversed bound order, landing in `(-2,-1] ⊆ [-2,-1]`); `theta6`'s
middle block is zero, and `theta6` has one row when `use_t_in_e = 0` and two
rows otherwise, with three columns always. -/
theorem C3_get_theta_ranges (d use_t_in_e k : ℕ)
    (v1 v2 v3 v4 v5 v6a v6c : ℕ → ℕ → ℚ)
    (hv1 : ∀ i j, 0 ≤ v1 i j ∧ v1 i j < 1)
    (hv2 : ∀ i j, 0 ≤ v2 i j ∧ v2 i j < 1)
    (hv3 : ∀ i j, 0 ≤ v3 i j ∧ v3 i j < 1)
    (hv4 : ∀ i j, 0 ≤ v4 i j ∧ v4 i j < 1)
    (hv5 : ∀ i j, 0 ≤ v5 i j ∧ v5 i j < 1)
    (hv6a : ∀ i j, 0 ≤ v6a i j ∧ v6a i j < 1)
    (hv6c : ∀ i j, 0 ≤ v6c i j ∧ v6c i j < 1) :
    (∀ i j, 1 ≤ (get_theta d use_t_in_e k v1 v2 v3 v4 v5 v6a v6c).1.entry i j
      ∧ (get_theta d use_t_in_e k v1 v2 v3 v4 v5 v6a v6c).1.entry i j < 2) ∧
    (∀ i j, 1 ≤ (get_theta d use_t_in_e k v1 v2 v3 v4 v5 v6a v6c).2.1.entry i j
      ∧ (get_theta d use_t_in_e k v1 v2 v3 v4 v5 v6a v6c).2.1.entry i j < 2) ∧
    (∀ i j, 1 ≤ (get_theta d use_t_in_e k v1 v2 v3 v4 v5 v6a v6c).2.2.1.entry i j
      ∧ (get_theta d use_t_in_e k v1 v2 v3 v4 v5 v6a v6c).2.2.1.entry i j < 2) ∧
    (∀ i j, 1 ≤ (get_theta d use_t_in_e k v1 v2 v3 v4 v5 v6a v6c).2.2.2.1.entry i j
      ∧ (get_theta d use_t_in_e k v1 v2 v3 v4 v5 v6a v6c).2.2.2.1.entry i j < 2) ∧
    (∀ i j, 1 ≤ (get_theta d use_t_in_e k v1 v2 v3 v4 v5 v6a v6c).2.2.2.2.1.entry i j
      ∧ (get_theta d use_t_in_e k v1 v2 v3 v4 v5 v6a v6c).2.2.2.2.1.entry i j < 2) ∧
    ((get_theta d use_t_in_e k v1 v2 v3 v4 v5 v6a v6c).2.2.2.2.2.rows
      = if use_t_in_e = 0 then 1 else 2) ∧
    ((get_theta d use_t_in_e k v1 v2 v3 v4 v5 v6a v6c).2.2.2.2.2.cols = 3) ∧
    (∀ i, 1 ≤ (get_theta d use_t_in_e k v1 v2 v3 v4 v5 v6a v6c).2.2.2.2.2.entry i 0
      ∧ (get_theta d use_t_in_e k v1 v2 v3 v4 v5 v6a v6c).2.2.2.2.2.entry i 0 < 2) ∧
    (∀ i, (get_theta d use_t_in_e k v1 v2 v3 v4 v5 v6a v6c).2.2.2.2.2.entry i 1 = 0) ∧
    (∀ i, -2 < (get_theta d use_t_in_e k v1 v2 v3 v4 v5 v6a v6c).2.2.2.2.2.entry i 2
      ∧ (get_theta d use_t_in_e k v1 v2 v3 v4 v5 v6a v6c).2.2.2.2.2.entry i 2 ≤ -1) := by
  refine ⟨fun i j => uniformE_unit_range (hv1 i j).1 (hv1 i j).2,
    fun i j => uniformE_unit_range (hv2 i j).1 (hv2 i j).2,
    fun i j => uniformE_unit_range (hv3 i j).1 (hv3 i j).2,
    fun i j => uniformE_unit_range (hv4 i j).1 (hv4 i j).2,
    fun i j => uniformE_unit_range (hv5 i j).1 (hv5 i j).2,
    ?_, ?_, ?_, ?_, ?_⟩
  · by_cases hu : use_t_in_e = 0 <;>
      simp [get_theta, hu, cat3, cat2, uniformM, zerosM]
  · by_cases hu : use_t_in_e = 0 <;>
      simp [get_theta, hu, cat3, cat2, uniformM, zerosM]
  · intro i
    by_cases hu : use_t_in_e = 0 <;>
      simpa [get_theta, hu, cat3, cat2, uniformM, zerosM] using
        uniformE_unit_range (hv6a i 0).1 (hv6a i 0).2
  · intro i
    by_cases hu : use_t_in_e = 0 <;>
      simp [get_theta, hu, cat3, cat2, uniformM, zerosM]
  · intro i
    by_cases hu : use_t_in_e = 0 <;>
      simpa [get_theta, hu, cat3, cat2, uniformM, zerosM] using
        uniformE_neg_range (hv6c i 0).1 (hv6c i 0).2

/-- Witness for C3 at `d = 1`, `use_t_in_e = 0`, `k = 3`, all-zero unit
draws. -/
theorem C3_get_theta_ranges_witness :
    (∀ i j, 1 ≤ (get_theta 1 0 3 zf zf zf zf zf zf zf).1.entry i j
      ∧ (get_theta 1 0 3 zf zf zf zf zf zf zf).1.entry i j < 2) ∧
    (∀ i j, 1 ≤ (get_theta 1 0 3 zf zf zf zf zf zf zf).2.1.entry i j
      ∧ (get_theta 1 0 3 zf zf zf zf zf zf zf).2.1.entry i j < 2) ∧
    (∀ i j, 1 ≤ (get_theta 1 0 3 zf zf zf zf zf zf zf).2.2.1.entry i j
      ∧ (get_theta 1 0 3 zf zf zf zf zf zf zf).2.2.1.entry i j < 2) ∧
    (∀ i j, 1 ≤ (get_theta 1 0 3 zf zf zf zf zf zf zf).2.2.2.1.entry i j
      ∧ (get_theta 1 0 3 zf zf zf zf zf zf zf).2.2.2.1.entry i j < 2) ∧
    (∀ i j, 1 ≤ (get_theta 1 0 3 zf zf zf zf zf zf zf).2.2.2.2.1.entry i j
      ∧ (get_theta 1 0 3 zf zf zf zf zf zf zf).2.2.2.2.1.entry i j < 2) ∧
    ((get_theta 1 0 3 zf zf zf zf zf zf zf).2.2.2.2.2.rows
      = if (0:ℕ) = 0 then 1 else 2) ∧
    ((get_theta 1 0 3 zf zf zf zf zf zf zf).2.2.2.2.2.cols = 3) ∧
    (∀ i, 1 ≤ (get_theta 1 0 3 zf zf zf zf zf zf zf).2.2.2.2.2.entry i 0
      ∧ (get_theta 1 0 3 zf zf zf zf zf zf zf).2.2.2.2.2.entry i 0 < 2) ∧
    (∀ i, (get_theta 1 0 3 zf zf zf zf zf zf zf).2.2.2.2.2.entry i 1 = 0) ∧
    (∀ i, -2 < (get_theta 1 0 3 zf zf zf zf zf zf zf).2.2.2.2.2.entry i 2
      ∧ (get_theta 1 0 3 zf zf zf zf zf zf zf).2.2.2.2.2.entry i 2 ≤ -1) := by
  have hz : ∀ i j : ℕ, (0:ℚ) ≤ zf i j ∧ zf i j < 1 := by
    intro i j
    norm_num [zf]
  exact C3_get_theta_ranges 1 0 3 zf zf zf zf zf zf zf hz hz hz hz hz hz hz

end SynEntner

namespace Np

/-- The inverse-CDF pick always lands strictly below the category count. -/
lemma pickIdx_lt : ∀ (m : ℕ), 1 ≤ m → ∀ (p : ℕ → ℚ) (u : ℚ),
    pickIdx m p u < m
  | 1, _, p, u => by simp [pickIdx]
  | (m+2), _, p, u => by
    simp only [pickIdx]
    split
    · omega
    · have := pickIdx_lt (m+1) (by omega) (fun j => p (j+1)) (u - p 0)
      omega

end Np

namespace SynEntner

open Np

/-- C4: for every environment count `k ≥ 1` and every row `i`, the
environment label `e[i]` returned by a successful `get_data` call is an
integer in `[0, k)`, and `t[i]` is an integer in `{0, 1}`, even though both
are stored in tables of rationals. -/
theorem C4_e_and_t_integer_ranges
    (ex : ℚ → ℚ) (a1 a2 a3 a4 b1 b2 b3 b4 b5 b6a b6c : ℕ → ℕ → ℚ)
    (g1 g2 g3 wT : ℕ → ℕ → ℚ) (wE : ℕ → ℚ) (gY : ℕ → ℕ → ℚ)
    (n d use_t_in_e k : ℕ) (out : SimData) (hk : 1 ≤ k)
    (h : get_data ex (get_u n d a1 a2 a3 a4).1 (get_u n d a1 a2 a3 a4).2.1
      (get_u n d a1 a2 a3 a4).2.2.1 (get_u n d a1 a2 a3 a4).2.2.2
      (get_theta d use_t_in_e k b1 b2 b3 b4 b5 b6a b6c).1
      (get_theta d use_t_in_e k b1 b2 b3 b4 b5 b6a b6c).2.1
      (get_theta d use_t_in_e k b1 b2 b3 b4 b5 b6a b6c).2.2.1
      (get_theta d use_t_in_e k b1 b2 b3 b4 b5 b6a b6c).2.2.2.1
      (get_theta d use_t_in_e k b1 b2 b3 b4 b5 b6a b6c).2.2.2.2.1
      (get_theta d use_t_in_e k b1 b2 b3 b4 b5 b6a b6c).2.2.2.2.2
      n d use_t_in_e k g1 g2 g3 wT wE gY = some out) :
    ∀ i, i < n →
      (out.t.entry i 0 = 0 ∨ out.t.entry i 0 = 1) ∧
      ∃ m : ℕ, out.e.entry i 0 = (m : ℚ) ∧ m < k := by
  obtain ⟨x1, x2, x3, t, pr, hx1, hx2, hx3, ht, hpr, hall, rfl⟩ :=
    get_data_inv h
  have hrows : pr.rows = n := by
    rw [hpr, hx1]
    by_cases hu : use_t_in_e = 0 <;> simp [hu] <;> rfl
  intro i hi
  constructor
  · simp only [ht, binom1]
    split
    · right
      rfl
    · left
      rfl
  · refine ⟨pickIdx k (fun j => pr.entry i j) (wE i), ?_,
      pickIdx_lt k hk _ _⟩
    show (if i < pr.rows then
      ((pickIdx k (fun j => pr.entry i j) (wE i) : ℕ) : ℚ) else 0) = _
    rw [if_pos (hrows ▸ hi)]

/-- Witness for C4 at `n = 1`, `d = 1`, `use_t_in_e = 1`, `k = 3`, row 0. -/
theorem C4_e_and_t_integer_ranges_witness : ∃ out : SimData,
    get_data exOne (get_u 1 1 zf zf zf zf).1 (get_u 1 1 zf zf zf zf).2.1
      (get_u 1 1 zf zf zf zf).2.2.1 (get_u 1 1 zf zf zf zf).2.2.2
      (get_theta 1 1 3 zf zf zf zf zf zf zf).1
      (get_theta 1 1 3 zf zf zf zf zf zf zf).2.1
      (get_theta 1 1 3 zf zf zf zf zf zf zf).2.2.1
      (get_theta 1 1 3 zf zf zf zf zf zf zf).2.2.2.1
      (get_theta 1 1 3 zf zf zf zf zf zf zf).2.2.2.2.1
      (get_theta 1 1 3 zf zf zf zf zf zf zf).2.2.2.2.2
      1 1 1 3 zf zf zf zf zf1 zf = some out ∧
    (out.t.entry 0 0 = 0 ∨ out.t.entry 0 0 = 1) ∧
    ∃ m : ℕ, out.e.entry 0 0 = (m : ℚ) ∧ m < 3 := by
  have hs : (get_data exOne (get_u 1 1 zf zf zf zf).1
      (get_u 1 1 zf zf zf zf).2.1
      (get_u 1 1 zf zf zf zf).2.2.1 (get_u 1 1 zf zf zf zf).2.2.2
      (get_theta 1 1 3 zf zf zf zf zf zf zf).1
      (get_theta 1 1 3 zf zf zf zf zf zf zf).2.1
      (get_theta 1 1 3 zf zf zf zf zf zf zf).2.2.1
      (get_theta 1 1 3 zf zf zf zf zf zf zf).2.2.2.1
      (get_theta 1 1 3 zf zf zf zf zf zf zf).2.2.2.2.1
      (get_theta 1 1 3 zf zf zf zf zf zf zf).2.2.2.2.2
      1 1 1 3 zf zf zf zf zf1 zf).isSome = true := by
    norm_num [get_data, get_u, get_theta, exOne, zf, zf1, Np.softmaxRow,
      Np.subColMean, Np.colMean, Np.dot, Np.cat2, Np.cat3, Np.add,
      Np.smul, Np.normalM, Np.uniformM, Np.uniformE, Np.binom1, Np.expitM,
      Np.expitE, Np.subScalar, Np.mean, Np.zerosM, Np.onesM, Np.choiceOK,
      List.range_succ, Finset.sum_range_succ]
  refine ⟨Option.get _ hs, (Option.some_get hs).symm, ?_⟩
  exact C4_e_and_t_integer_ranges exOne zf zf zf zf zf zf zf zf zf zf zf
    zf zf zf zf zf1 zf 1 1 1 3 _ (by decide) (Option.some_get hs).symm
    0 (by decide)

/-- C9: for every environment count `k ≠ 3` (and any `use_t_in_e`), the
simulator `get_data`, run on latents from `get_u` and coefficients from
`get_theta` with at least one row, fails at the per-row environment draw:
`theta6` always has exactly 3 columns independent of `k`, so each softmax
probability vector has length 3 while the choice set is `arange k`, and
`np.random.choice` requires those sizes to agree; the run raises
(returns `none`), making the `--ne` parameter usable only at its default 3. -/
theorem C9_get_data_fails_for_k_ne_three
    (ex : ℚ → ℚ) (a1 a2 a3 a4 b1 b2 b3 b4 b5 b6a b6c : ℕ → ℕ → ℚ)
    (g1 g2 g3 wT : ℕ → ℕ → ℚ) (wE : ℕ → ℚ) (gY : ℕ → ℕ → ℚ)
    (n d use_t_in_e k : ℕ) (hk : k ≠ 3) (hn : 1 ≤ n) :
    get_data ex (get_u n d a1 a2 a3 a4).1 (get_u n d a1 a2 a3 a4).2.1
      (get_u n d a1 a2 a3 a4).2.2.1 (get_u n d a1 a2 a3 a4).2.2.2
      (get_theta d use_t_in_e k b1 b2 b3 b4 b5 b6a b6c).1
      (get_theta d use_t_in_e k b1 b2 b3 b4 b5 b6a b6c).2.1
      (get_theta d use_t_in_e k b1 b2 b3 b4 b5 b6a b6c).2.2.1
      (get_theta d use_t_in_e k b1 b2 b3 b4 b5 b6a b6c).2.2.2.1
      (get_theta d use_t_in_e k b1 b2 b3 b4 b5 b6a b6c).2.2.2.2.1
      (get_theta d use_t_in_e k b1 b2 b3 b4 b5 b6a b6c).2.2.2.2.2
      n d use_t_in_e k g1 g2 g3 wT wE gY = none := by
  cases hres : get_data ex (get_u n d a1 a2 a3 a4).1 (get_u n d a1 a2 a3 a4).2.1
      (get_u n d a1 a2 a3 a4).2.2.1 (get_u n d a1 a2 a3 a4).2.2.2
      (get_theta d use_t_in_e k b1 b2 b3 b4 b5 b6a b6c).1
      (get_theta d use_t_in_e k b1 b2 b3 b4 b5 b6a b6c).2.1
      (get_theta d use_t_in_e k b1 b2 b3 b4 b5 b6a b6c).2.2.1
      (get_theta d use_t_in_e k b1 b2 b3 b4 b5 b6a b6c).2.2.2.1
      (get_theta d use_t_in_e k b1 b2 b3 b4 b5 b6a b6c).2.2.2.2.1
      (get_theta d use_t_in_e k b1 b2 b3 b4 b5 b6a b6c).2.2.2.2.2
      n d use_t_in_e k g1 g2 g3 wT wE gY with
  | none => rfl
  | some out =>
    exfalso
    obtain ⟨x1, x2, x3, t, pr, hx1, hx2, hx3, ht, hpr, hall, -⟩ :=
      get_data_inv hres
    have hrows : pr.rows = n := by
      rw [hpr, hx1]
      by_cases hu : use_t_in_e = 0 <;> simp [hu] <;> rfl
    have hcols : pr.cols = 3 := by
      rw [hpr]
      by_cases hu : use_t_in_e = 0 <;>
        simp [hu, get_theta, softmaxRow, subColMean, dot, cat3, cat2,
          uniformM, zerosM]
    rw [List.all_eq_true] at hall
    have h0 := hall 0 (by rw [List.mem_range, hrows]; omega)
    simp only [choiceOK, Bool.and_eq_true, decide_eq_true_eq] at h0
    have h31 := h0.1.1
    rw [hcols] at h31
    exact hk h31.symm

/-- Witness for C9 at `n = 1`, `d = 1`, `use_t_in_e = 1`, `k = 2`. -/
theorem C9_get_data_fails_for_k_ne_three_witness :
    get_data exOne (get_u 1 1 zf zf zf zf).1 (get_u 1 1 zf zf zf zf).2.1
      (get_u 1 1 zf zf zf zf).2.2.1 (get_u 1 1 zf zf zf zf).2.2.2
      (get_theta 1 1 2 zf zf zf zf zf zf zf).1
      (get_theta 1 1 2 zf zf zf zf zf zf zf).2.1
      (get_theta 1 1 2 zf zf zf zf zf zf zf).2.2.1
      (get_theta 1 1 2 zf zf zf zf zf zf zf).2.2.2.1
      (get_theta 1 1 2 zf zf zf zf zf zf zf).2.2.2.2.1
      (get_theta 1 1 2 zf zf zf zf zf zf zf).2.2.2.2.2
      1 1 1 2 zf zf zf zf zf1 zf = none :=
  C9_get_data_fails_for_k_ne_three exOne zf zf zf zf zf zf zf zf zf zf zf
    zf zf zf zf zf1 zf 1 1 1 2 (by decide) (by decide)

end SynEntner

/-- An identity permutation oracle used by concrete witnesses. -/
def idf : ℕ → ℕ := fun i => i

namespace Np

/-- `np.mean` of a nonempty one-column matrix whose in-shape entries are all
the constant `c` is `c`. -/
lemma mean_of_const (A : MatQ) (c : ℚ) (h1 : A.cols = 1)
    (hA : ∀ i, A.entry i 0 = c) (hr : 1 ≤ A.rows) : mean A = c := by
  unfold mean
  rw [h1]
  rw [Finset.sum_congr rfl (fun i _ => by rw [Finset.sum_range_one, hA i])]
  rw [Finset.sum_const, Finset.card_range, nsmul_eq_mul]
  have hn0 : ((A.rows : ℕ) : ℚ) ≠ 0 := Nat.cast_ne_zero.mpr (by omega)
  field_simp

/-- `ceil(0.2*5) = 1`: the concrete test-block size used by the witnesses. -/
lemma testCount_five : testCount 5 = 1 := by
  have h : (⌈((5:ℕ):ℚ) * (1/5)⌉) = 1 := by rw [Int.ceil_eq_iff] <;> norm_num
  unfold testCount
  rw [h]
  rfl

end Np

namespace SynEntner

open Np

/-- Inversion of a successful `get_train_test_data` call: the underlying
`get_data` call succeeded, the train partition of the split is nonempty (so
sklearn's split-size `ValueError` was not raised), and the output is the
population ATE together with the twelve aligned train/test tables cut out of
the simulated tables by the shared shuffle `perm`. -/
lemma get_train_test_data_inv {ex : ℚ → ℚ}
    {uv1 uv2 uv3 uv4 tv1 tv2 tv3 tv4 tv5 tv6a tv6c : ℕ → ℕ → ℚ}
    {g1 g2 g3 wT : ℕ → ℕ → ℚ} {wE : ℕ → ℚ} {gY : ℕ → ℕ → ℚ} {perm : ℕ → ℕ}
    {n d use_t_in_e k : ℕ} {out : SplitData}
    (h : get_train_test_data ex uv1 uv2 uv3 uv4 tv1 tv2 tv3 tv4 tv5 tv6a tv6c
      g1 g2 g3 wT wE gY perm n d use_t_in_e k = some out) :
    ∃ s : SimData,
      get_data ex (get_u n d uv1 uv2 uv3 uv4).1 (get_u n d uv1 uv2 uv3 uv4).2.1
        (get_u n d uv1 uv2 uv3 uv4).2.2.1 (get_u n d uv1 uv2 uv3 uv4).2.2.2
        (get_theta d use_t_in_e k tv1 tv2 tv3 tv4 tv5 tv6a tv6c).1
        (get_theta d use_t_in_e k tv1 tv2 tv3 tv4 tv5 tv6a tv6c).2.1
        (get_theta d use_t_in_e k tv1 tv2 tv3 tv4 tv5 tv6a tv6c).2.2.1
        (get_theta d use_t_in_e k tv1 tv2 tv3 tv4 tv5 tv6a tv6c).2.2.2.1
        (get_theta d use_t_in_e k tv1 tv2 tv3 tv4 tv5 tv6a tv6c).2.2.2.2.1
        (get_theta d use_t_in_e k tv1 tv2 tv3 tv4 tv5 tv6a tv6c).2.2.2.2.2
        n d use_t_in_e k g1 g2 g3 wT wE gY = some s ∧
      (cat3 s.x1 s.x2 s.x3).rows
        - testCount ((cat3 s.x1 s.x2 s.x3).rows) ≠ 0 ∧
      out = ⟨takeTrain perm (cat3 s.x1 s.x2 s.x3).rows
          (testCount (cat3 s.x1 s.x2 s.x3).rows) (cat3 s.x1 s.x2 s.x3),
        takeTrain perm (cat3 s.x1 s.x2 s.x3).rows
          (testCount (cat3 s.x1 s.x2 s.x3).rows) s.t,
        takeTrain perm (cat3 s.x1 s.x2 s.x3).rows
          (testCount (cat3 s.x1 s.x2 s.x3).rows) s.y,
        takeTrain perm (cat3 s.x1 s.x2 s.x3).rows
          (testCount (cat3 s.x1 s.x2 s.x3).rows) s.e,
        takeTrain perm (cat3 s.x1 s.x2 s.x3).rows
          (testCount (cat3 s.x1 s.x2 s.x3).rows) s.y_0,
        takeTrain perm (cat3 s.x1 s.x2 s.x3).rows
          (testCount (cat3 s.x1 s.x2 s.x3).rows) s.y_1,
        takeTest perm (testCount (cat3 s.x1 s.x2 s.x3).rows) (cat3 s.x1 s.x2 s.x3),
        takeTest perm (testCount (cat3 s.x1 s.x2 s.x3).rows) s.t,
        takeTest perm (testCount (cat3 s.x1 s.x2 s.x3).rows) s.y,
        takeTest perm (testCount (cat3 s.x1 s.x2 s.x3).rows) s.e,
        takeTest perm (testCount (cat3 s.x1 s.x2 s.x3).rows) s.y_0,
        takeTest perm (testCount (cat3 s.x1 s.x2 s.x3).rows) s.y_1,
        round6 (mean (sub s.y_1 s.y_0))⟩ := by
  simp only [get_train_test_data] at h
  cases hg : get_data ex (get_u n d uv1 uv2 uv3 uv4).1
      (get_u n d uv1 uv2 uv3 uv4).2.1
      (get_u n d uv1 uv2 uv3 uv4).2.2.1 (get_u n d uv1 uv2 uv3 uv4).2.2.2
      (get_theta d use_t_in_e k tv1 tv2 tv3 tv4 tv5 tv6a tv6c).1
      (get_theta d use_t_in_e k tv1 tv2 tv3 tv4 tv5 tv6a tv6c).2.1
      (get_theta d use_t_in_e k tv1 tv2 tv3 tv4 tv5 tv6a tv6c).2.2.1
      (get_theta d use_t_in_e k tv1 tv2 tv3 tv4 tv5 tv6a tv6c).2.2.2.1
      (get_theta d use_t_in_e k tv1 tv2 tv3 tv4 tv5 tv6a tv6c).2.2.2.2.1
      (get_theta d use_t_in_e k tv1 tv2 tv3 tv4 tv5 tv6a tv6c).2.2.2.2.2
      n d use_t_in_e k g1 g2 g3 wT wE gY with
  | none =>
    rw [hg] at h
    exact Option.noConfusion h
  | some s =>
    rw [hg] at h
    dsimp only at h
    rw [Option.ite_none_left_eq_some] at h
    exact ⟨s, rfl, h.1, (Option.some.inj h.2).symm⟩

/-- C10: for every `n ≥ 1` and `d ≥ 1`, the `true_ate` returned by
`get_train_test_data` equals `round(theta4[d*2, 0], 6)` — the rounded last
entry of `theta4` — exactly, independent of the latents, the covariates, the
noise draws and the number of observations, since `y_1 - y_0` is that same
constant in every row. -/
theorem C10_true_ate_eq_round6_theta4_last (ex : ℚ → ℚ)
    (uv1 uv2 uv3 uv4 tv1 tv2 tv3 tv4 tv5 tv6a tv6c : ℕ → ℕ → ℚ)
    (g1 g2 g3 wT : ℕ → ℕ → ℚ) (wE : ℕ → ℚ) (gY : ℕ → ℕ → ℚ) (perm : ℕ → ℕ)
    (n d use_t_in_e k : ℕ) (out : SplitData) (hn : 1 ≤ n) (hd : 1 ≤ d)
    (h : get_train_test_data ex uv1 uv2 uv3 uv4 tv1 tv2 tv3 tv4 tv5 tv6a tv6c
      g1 g2 g3 wT wE gY perm n d use_t_in_e k = some out) :
    out.true_ate = round6
      ((get_theta d use_t_in_e k tv1 tv2 tv3 tv4 tv5 tv6a tv6c).2.2.2.1.entry
        (d * 2) 0) := by
  obtain ⟨s, hg, hne, rfl⟩ := get_train_test_data_inv h
  show round6 (mean (sub s.y_1 s.y_0)) = _
  have hy : ∀ i : ℕ, (sub s.y_1 s.y_0).entry i 0
      = (get_theta d use_t_in_e k tv1 tv2 tv3 tv4 tv5 tv6a tv6c).2.2.2.1.entry
        (d * 2) 0 := by
    intro i
    have hyd := get_data_ydiff hg i 0
    have hcc : ((get_theta d use_t_in_e k tv1 tv2 tv3 tv4 tv5 tv6a
        tv6c).2.1).cols + ((get_u n d uv1 uv2 uv3 uv4).2.2.2).cols = d * 2 := by
      show d + d = d * 2
      omega
    rw [hcc] at hyd
    simpa [sub] using hyd
  have hrows : (sub s.y_1 s.y_0).rows = n := by
    obtain ⟨x1, x2, x3, t, pr, rfl, rfl, rfl, rfl, rfl, hall, rfl⟩ :=
      get_data_inv hg
    rfl
  have hcols : (sub s.y_1 s.y_0).cols = 1 := by
    obtain ⟨x1, x2, x3, t, pr, rfl, rfl, rfl, rfl, rfl, hall, rfl⟩ :=
      get_data_inv hg
    rfl
  rw [mean_of_const (sub s.y_1 s.y_0) _ hcols hy
    (by rw [hrows]; exact hn)]

/-- Witness for C10 at `n = 5` (so the real sklearn split also succeeds:
train block of 4 rows, test block of 1), `d = 1`, `use_t_in_e = 1`, `k = 3`,
identity shuffle. -/
theorem C10_true_ate_eq_round6_theta4_last_witness : ∃ out : SplitData,
    get_train_test_data exOne zf zf zf zf zf zf zf zf zf zf zf
      zf zf zf zf zf1 zf idf 5 1 1 3 = some out ∧
    out.true_ate = round6
      ((get_theta 1 1 3 zf zf zf zf zf zf zf).2.2.2.1.entry 2 0) := by
  have hs : (get_train_test_data exOne zf zf zf zf zf zf zf zf zf zf zf
      zf zf zf zf zf1 zf idf 5 1 1 3).isSome = true := by
    norm_num [get_train_test_data, get_data, get_u, get_theta, exOne, zf, zf1,
      Np.testCount_five, Np.softmaxRow, Np.subColMean, Np.colMean, Np.dot,
      Np.cat2, Np.cat3, Np.add, Np.smul, Np.normalM, Np.uniformM, Np.uniformE,
      Np.binom1, Np.expitM, Np.expitE, Np.subScalar, Np.mean, Np.zerosM,
      Np.onesM, Np.choiceOK, List.range_succ, Finset.sum_range_succ]
  refine ⟨Option.get _ hs, (Option.some_get hs).symm, ?_⟩
  exact C10_true_ate_eq_round6_theta4_last exOne zf zf zf zf zf zf zf zf zf
    zf zf zf zf zf zf zf1 zf idf 5 1 1 3 _ (by decide) (by decide)
    (Option.some_get hs).symm

end SynEntner

namespace Np

/-- The sklearn test-block size `ceil(0.2*n)` never exceeds `n`. -/
lemma testCount_le (n : ℕ) : testCount n ≤ n := by
  unfold testCount
  have h1 : (⌈(n:ℚ) * (1/5)⌉) ≤ (n:ℤ) := by
    apply Int.ceil_le.mpr
    push_cast
    nlinarith [Nat.cast_nonneg (α := ℚ) n]
  exact Int.toNat_le.mpr h1

/-- Summing `f ∘ perm` over `range n` equals summing `f`, when `perm` maps
`range n` into itself injectively. -/
lemma sum_range_of_permuted (n : ℕ) (perm : ℕ → ℕ) (f : ℕ → ℚ)
    (hb : ∀ i < n, perm i < n)
    (hinj : ∀ i < n, ∀ j < n, perm i = perm j → i = j) :
    ∑ i ∈ Finset.range n, f (perm i) = ∑ i ∈ Finset.range n, f i := by
  have hinj' : ∀ i ∈ Finset.range n, ∀ j ∈ Finset.range n,
      perm i = perm j → i = j := fun i hi j hj =>
    hinj i (Finset.mem_range.mp hi) j (Finset.mem_range.mp hj)
  have himg : (Finset.range n).image perm = Finset.range n := by
    apply Finset.eq_of_subset_of_card_le
    · intro x hx
      obtain ⟨i, hi, rfl⟩ := Finset.mem_image.mp hx
      exact Finset.mem_range.mpr (hb i (Finset.mem_range.mp hi))
    · rw [Finset.card_image_of_injOn hinj']
  calc ∑ i ∈ Finset.range n, f (perm i)
      = ∑ x ∈ (Finset.range n).image perm, f x :=
        (Finset.sum_image hinj').symm
    _ = ∑ i ∈ Finset.range n, f i := by rw [himg]

end Np

namespace SynEntner

open Np

/-- C5: `get_train_test_data` computes `true_ate = round(mean(y_1-y_0), 6)`
over the full population before splitting, then performs one random 80/20
row split (the test block has `ceil(0.2*n)` rows) such that the train and
test row counts sum to `n`, all twelve output sequences keep matching row
correspondence through the single shared shuffle `perm`, and concatenating
the train and test potential outcomes reproduces the pre-split population
mean. -/
theorem C5_split_population_properties (ex : ℚ → ℚ)
    (uv1 uv2 uv3 uv4 tv1 tv2 tv3 tv4 tv5 tv6a tv6c : ℕ → ℕ → ℚ)
    (g1 g2 g3 wT : ℕ → ℕ → ℚ) (wE : ℕ → ℚ) (gY : ℕ → ℕ → ℚ) (perm : ℕ → ℕ)
    (n d use_t_in_e k : ℕ) (s : SimData) (out : SplitData)
    (hperm : ∀ i < n, perm i < n)
    (hinj : ∀ i < n, ∀ j < n, perm i = perm j → i = j)
    (hg : get_data ex (get_u n d uv1 uv2 uv3 uv4).1
      (get_u n d uv1 uv2 uv3 uv4).2.1
      (get_u n d uv1 uv2 uv3 uv4).2.2.1 (get_u n d uv1 uv2 uv3 uv4).2.2.2
      (get_theta d use_t_in_e k tv1 tv2 tv3 tv4 tv5 tv6a tv6c).1
      (get_theta d use_t_in_e k tv1 tv2 tv3 tv4 tv5 tv6a tv6c).2.1
      (get_theta d use_t_in_e k tv1 tv2 tv3 tv4 tv5 tv6a tv6c).2.2.1
      (get_theta d use_t_in_e k tv1 tv2 tv3 tv4 tv5 tv6a tv6c).2.2.2.1
      (get_theta d use_t_in_e k tv1 tv2 tv3 tv4 tv5 tv6a tv6c).2.2.2.2.1
      (get_theta d use_t_in_e k tv1 tv2 tv3 tv4 tv5 tv6a tv6c).2.2.2.2.2
      n d use_t_in_e k g1 g2 g3 wT wE gY = some s)
    (h : get_train_test_data ex uv1 uv2 uv3 uv4 tv1 tv2 tv3 tv4 tv5 tv6a tv6c
      g1 g2 g3 wT wE gY perm n d use_t_in_e k = some out) :
    out.true_ate = round6 (mean (sub s.y_1 s.y_0)) ∧
    out.x_train.rows + out.x_test.rows = n ∧
    out.x_test.rows = testCount n ∧
    (∀ i j, out.x_train.entry i j
        = (cat3 s.x1 s.x2 s.x3).entry (perm (testCount n + i)) j ∧
      out.x_test.entry i j = (cat3 s.x1 s.x2 s.x3).entry (perm i) j) ∧
    (∀ i, out.t_train.entry i 0 = s.t.entry (perm (testCount n + i)) 0 ∧
      out.y_train.entry i 0 = s.y.entry (perm (testCount n + i)) 0 ∧
      out.e_train.entry i 0 = s.e.entry (perm (testCount n + i)) 0 ∧
      out.y_0_train.entry i 0 = s.y_0.entry (perm (testCount n + i)) 0 ∧
      out.y_1_train.entry i 0 = s.y_1.entry (perm (testCount n + i)) 0 ∧
      out.t_test.entry i 0 = s.t.entry (perm i) 0 ∧
      out.y_test.entry i 0 = s.y.entry (perm i) 0 ∧
      out.e_test.entry i 0 = s.e.entry (perm i) 0 ∧
      out.y_0_test.entry i 0 = s.y_0.entry (perm i) 0 ∧
      out.y_1_test.entry i 0 = s.y_1.entry (perm i) 0) ∧
    ((∑ i ∈ Finset.range out.y_1_train.rows,
        (out.y_1_train.entry i 0 - out.y_0_train.entry i 0)) +
      ∑ i ∈ Finset.range out.y_1_test.rows,
        (out.y_1_test.entry i 0 - out.y_0_test.entry i 0)) / (n : ℚ)
      = mean (sub s.y_1 s.y_0) := by
  obtain ⟨s', hg', hne, rfl⟩ := get_train_test_data_inv h
  have hss : s = s' := Option.some.inj (hg.symm.trans hg')
  subst hss
  have hF : (cat3 s.x1 s.x2 s.x3).rows = n := by
    obtain ⟨x1, x2, x3, t, pr, rfl, rfl, rfl, rfl, rfl, hall, rfl⟩ :=
      get_data_inv hg
    rfl
  have hrowsY : (sub s.y_1 s.y_0).rows = n := by
    obtain ⟨x1, x2, x3, t, pr, rfl, rfl, rfl, rfl, rfl, hall, rfl⟩ :=
      get_data_inv hg
    rfl
  have hcolsY : (sub s.y_1 s.y_0).cols = 1 := by
    obtain ⟨x1, x2, x3, t, pr, rfl, rfl, rfl, rfl, rfl, hall, rfl⟩ :=
      get_data_inv hg
    rfl
  have htc := testCount_le n
  refine ⟨rfl, ?_, ?_, ?_, ?_, ?_⟩
  · show ((cat3 s.x1 s.x2 s.x3).rows - testCount (cat3 s.x1 s.x2 s.x3).rows)
      + testCount (cat3 s.x1 s.x2 s.x3).rows = n
    rw [hF]
    omega
  · show testCount (cat3 s.x1 s.x2 s.x3).rows = testCount n
    rw [hF]
  · intro i j
    constructor
    · show (cat3 s.x1 s.x2 s.x3).entry
        (perm (testCount (cat3 s.x1 s.x2 s.x3).rows + i)) j = _
      rw [hF]
    · rfl
  · intro i
    rw [hF]
    exact ⟨rfl, rfl, rfl, rfl, rfl, rfl, rfl, rfl, rfl, rfl⟩
  · have hcongr : (∑ i ∈ Finset.range n, ∑ j ∈ Finset.range 1,
          (sub s.y_1 s.y_0).entry i j)
        = ∑ i ∈ Finset.range n, (s.y_1.entry i 0 - s.y_0.entry i 0) := by
      apply Finset.sum_congr rfl
      intro i _
      rw [Finset.sum_range_one]
      rfl
    have hmean : mean (sub s.y_1 s.y_0)
        = (∑ i ∈ Finset.range n, (s.y_1.entry i 0 - s.y_0.entry i 0))
          / (n : ℚ) := by
      unfold mean
      rw [hrowsY, hcolsY]
      simp only [Nat.cast_one, mul_one]
      rw [hcongr]
    have hn' : testCount n + (n - testCount n) = n := by omega
    have hsplit : (∑ i ∈ Finset.range (n - testCount n),
          (s.y_1.entry (perm (testCount n + i)) 0
            - s.y_0.entry (perm (testCount n + i)) 0)) +
        ∑ i ∈ Finset.range (testCount n),
          (s.y_1.entry (perm i) 0 - s.y_0.entry (perm i) 0)
        = ∑ i ∈ Finset.range n,
          (s.y_1.entry (perm i) 0 - s.y_0.entry (perm i) 0) := by
      conv_rhs => rw [← hn']
      rw [Finset.sum_range_add, add_comm]
    have hpermsum := sum_range_of_permuted n perm
      (fun x => s.y_1.entry x 0 - s.y_0.entry x 0) hperm hinj
    dsimp only at hpermsum
    dsimp only [takeTrain, takeTest]
    rw [hF, hmean, ← hpermsum, ← hsplit]

/-- Witness for C5 at `n = 5`, `d = 1`, `use_t_in_e = 1`, `k = 3`, identity
shuffle (test block of size 1, train block of size 4). -/
theorem C5_split_population_properties_witness : ∃ (s : SimData)
    (out : SplitData),
    get_data exOne (get_u 5 1 zf zf zf zf).1 (get_u 5 1 zf zf zf zf).2.1
      (get_u 5 1 zf zf zf zf).2.2.1 (get_u 5 1 zf zf zf zf).2.2.2
      (get_theta 1 1 3 zf zf zf zf zf zf zf).1
      (get_theta 1 1 3 zf zf zf zf zf zf zf).2.1
      (get_theta 1 1 3 zf zf zf zf zf zf zf).2.2.1
      (get_theta 1 1 3 zf zf zf zf zf zf zf).2.2.2.1
      (get_theta 1 1 3 zf zf zf zf zf zf zf).2.2.2.2.1
      (get_theta 1 1 3 zf zf zf zf zf zf zf).2.2.2.2.2
      5 1 1 3 zf zf zf zf zf1 zf = some s ∧
    get_train_test_data exOne zf zf zf zf zf zf zf zf zf zf zf
      zf zf zf zf zf1 zf idf 5 1 1 3 = some out ∧
    out.true_ate = round6 (mean (sub s.y_1 s.y_0)) ∧
    out.x_train.rows + out.x_test.rows = 5 ∧
    out.x_test.rows = testCount 5 ∧
    ((∑ i ∈ Finset.range out.y_1_train.rows,
        (out.y_1_train.entry i 0 - out.y_0_train.entry i 0)) +
      ∑ i ∈ Finset.range out.y_1_test.rows,
        (out.y_1_test.entry i 0 - out.y_0_test.entry i 0)) / (5 : ℚ)
      = mean (sub s.y_1 s.y_0) := by
  have hs : (get_data exOne (get_u 5 1 zf zf zf zf).1
      (get_u 5 1 zf zf zf zf).2.1
      (get_u 5 1 zf zf zf zf).2.2.1 (get_u 5 1 zf zf zf zf).2.2.2
      (get_theta 1 1 3 zf zf zf zf zf zf zf).1
      (get_theta 1 1 3 zf zf zf zf zf zf zf).2.1
      (get_theta 1 1 3 zf zf zf zf zf zf zf).2.2.1
      (get_theta 1 1 3 zf zf zf zf zf zf zf).2.2.2.1
      (get_theta 1 1 3 zf zf zf zf zf zf zf).2.2.2.2.1
      (get_theta 1 1 3 zf zf zf zf zf zf zf).2.2.2.2.2
      5 1 1 3 zf zf zf zf zf1 zf).isSome = true := by
    norm_num [get_data, get_u, get_theta, exOne, zf, zf1, Np.softmaxRow,
      Np.subColMean, Np.colMean, Np.dot, Np.cat2, Np.cat3, Np.add,
      Np.smul, Np.normalM, Np.uniformM, Np.uniformE, Np.binom1, Np.expitM,
      Np.expitE, Np.subScalar, Np.mean, Np.zerosM, Np.onesM, Np.choiceOK,
      List.range_succ, Finset.sum_range_succ]
  have ht : (get_train_test_data exOne zf zf zf zf zf zf zf zf zf zf zf
      zf zf zf zf zf1 zf idf 5 1 1 3).isSome = true := by
    norm_num [get_train_test_data, get_data, get_u, get_theta, exOne, zf, zf1,
      Np.testCount_five, Np.softmaxRow, Np.subColMean, Np.colMean, Np.dot,
      Np.cat2, Np.cat3, Np.add, Np.smul, Np.normalM, Np.uniformM, Np.uniformE,
      Np.binom1, Np.expitM, Np.expitE, Np.subScalar, Np.mean, Np.zerosM,
      Np.onesM, Np.choiceOK, List.range_succ, Finset.sum_range_succ]
  refine ⟨Option.get _ hs, Option.get _ ht, (Option.some_get hs).symm,
    (Option.some_get ht).symm, ?_⟩
  obtain ⟨h1, h2, h3, -, -, h6⟩ :=
    C5_split_population_properties exOne zf zf zf zf zf zf zf zf zf zf zf
      zf zf zf zf zf1 zf idf 5 1 1 3 _ _
      (fun i hi => by simpa [idf] using hi)
      (fun i _ j _ hij => by simpa [idf] using hij)
      (Option.some_get hs).symm (Option.some_get ht).symm
  exact ⟨h1, h2, h3, h6⟩

end SynEntner

namespace Trial

open Np

lemma fillInner_rows (cell : ℕ → ℕ → ℚ) (r : ℕ) (M : MatQ) (m : ℕ) :
    (fillInner cell r M m).rows = M.rows := by
  induction m with
  | zero => rfl
  | succ m ih => simp [fillInner, updateCell, ih]

lemma fillInner_cols (cell : ℕ → ℕ → ℚ) (r : ℕ) (M : MatQ) (m : ℕ) :
    (fillInner cell r M m).cols = M.cols := by
  induction m with
  | zero => rfl
  | succ m ih => simp [fillInner, updateCell, ih]

/-- The inner loop writes exactly the cells `(r, b)` for `b < m` and leaves
every other entry of the accumulator unchanged. -/
lemma fillInner_entry (cell : ℕ → ℕ → ℚ) (r : ℕ) (M : MatQ) (m a b : ℕ) :
    (fillInner cell r M m).entry a b
      = if a = r ∧ b < m then cell r b else M.entry a b := by
  induction m with
  | zero => simp [fillInner]
  | succ m ih =>
    simp only [fillInner, updateCell]
    rw [ih]
    split_ifs with h1 h2 h3 h4 <;> first
      | rfl
      | (obtain ⟨rfl, rfl⟩ := h1; rfl)
      | omega

lemma fillOuter_rows (nr ngrid : ℕ) (cell : ℕ → ℕ → ℚ) (rr : ℕ) :
    (fillOuter nr ngrid cell rr).rows = nr := by
  induction rr with
  | zero => rfl
  | succ rr ih => simp [fillOuter, fillInner_rows, ih]

lemma fillOuter_cols (nr ngrid : ℕ) (cell : ℕ → ℕ → ℚ) (rr : ℕ) :
    (fillOuter nr ngrid cell rr).cols = ngrid := by
  induction rr with
  | zero => rfl
  | succ rr ih => simp [fillOuter, fillInner_cols, ih]

/-- After the first `rr` repetitions, cell `(a, b)` holds the collaborator's
value exactly when `a < rr` and `b < ngrid`, and is still the `np.zeros`
initial value otherwise. -/
lemma fillOuter_entry (nr ngrid : ℕ) (cell : ℕ → ℕ → ℚ) (rr a b : ℕ) :
    (fillOuter nr ngrid cell rr).entry a b
      = if a < rr ∧ b < ngrid then cell a b else 0 := by
  induction rr with
  | zero => simp [fillOuter, zerosM]
  | succ rr ih =>
    simp only [fillOuter]
    rw [fillInner_entry, ih]
    split_ifs with h1 h2 h3 h4 <;> first
      | rfl
      | (obtain ⟨rfl, -⟩ := h1; rfl)
      | omega

/-- Sum of squared deviations from the mean, divided by the count, equals
the mean of squares minus the squared mean. -/
lemma sum_sq_dev (N : ℕ) (f : ℕ → ℚ) (hN : ((N:ℕ):ℚ) ≠ 0) :
    (∑ r ∈ Finset.range N, (f r - (∑ i ∈ Finset.range N, f i)/(N:ℚ))^2) / (N:ℚ)
      = (∑ r ∈ Finset.range N, (f r)^2)/(N:ℚ)
        - ((∑ i ∈ Finset.range N, f i)/(N:ℚ))^2 := by
  set S := ∑ i ∈ Finset.range N, f i with hS
  have hexp : ∑ r ∈ Finset.range N, (f r - S/(N:ℚ))^2
      = (∑ r ∈ Finset.range N, (f r)^2) - 2*(S/(N:ℚ))*S + (N:ℚ)*((S/(N:ℚ))^2) := by
    have hpt : ∀ r ∈ Finset.range N, (f r - S/(N:ℚ))^2
        = ((f r)^2 - 2*(S/(N:ℚ))*(f r)) + (S/(N:ℚ))^2 := fun r _ => by ring
    rw [Finset.sum_congr rfl hpt, Finset.sum_add_distrib,
      Finset.sum_sub_distrib, ← Finset.mul_sum, Finset.sum_const,
      Finset.card_range, nsmul_eq_mul, ← hS]
  rw [hexp]
  field_simp
  ring

/-- C6: for every `num_repetitions ≥ 1`, a result matrix accumulated by the
trial runner's double loop has shape `(num_repetitions, grid length)`, is
filled at exactly cell `(r, i)` with the collaborator value for repetition
`r` and grid index `i`, and the reported standard error per column equals
the column-wise population standard deviation (`np.std` with `ddof = 0`,
here via the abstract square root `sq` and the population variance in
mean-of-squares form) divided by the square root of `num_repetitions`. -/
theorem C6_result_matrix_shape_fill_stderr (nr g : ℕ) (cell : ℕ → ℕ → ℚ)
    (hnr : 1 ≤ nr) :
    (runTrials nr g cell).rows = nr ∧
    (runTrials nr g cell).cols = g ∧
    (∀ r < nr, ∀ i < g, (runTrials nr g cell).entry r i = cell r i) ∧
    (∀ (sq : ℚ → ℚ) (j : ℕ),
      stdErrRep sq (runTrials nr g cell) nr j
        = sq (popVar (runTrials nr g cell) j) / sq ((nr : ℕ) : ℚ)) := by
  refine ⟨fillOuter_rows nr g cell nr, fillOuter_cols nr g cell nr, ?_, ?_⟩
  · intro r hr i hi
    rw [runTrials, fillOuter_entry]
    simp [hr, hi]
  · intro sq j
    have hrw : (runTrials nr g cell).rows = nr := fillOuter_rows nr g cell nr
    have hN : ((nr:ℕ):ℚ) ≠ 0 := Nat.cast_ne_zero.mpr (by omega)
    unfold stdErrRep stdAxis0 popVar meanSq colMean
    rw [hrw, Nat.sub_zero]
    exact congrArg (fun z => sq z / sq ((nr:ℕ):ℚ))
      (sum_sq_dev nr (fun r => (runTrials nr g cell).entry r j) hN)

/-- Witness for C6 at `num_repetitions = 5`, a 2-entry grid, the all-zero
collaborator and an arbitrary concrete square-root oracle. -/
theorem C6_result_matrix_shape_fill_stderr_witness :
    (runTrials 5 2 zf).rows = 5 ∧
    (runTrials 5 2 zf).cols = 2 ∧
    (∀ r < 5, ∀ i < 2, (runTrials 5 2 zf).entry r i = zf r i) ∧
    (∀ (sq : ℚ → ℚ) (j : ℕ),
      stdErrRep sq (runTrials 5 2 zf) 5 j
        = sq (popVar (runTrials 5 2 zf) j) / sq ((5 : ℕ) : ℚ)) :=
  C6_result_matrix_shape_fill_stderr 5 2 zf (by decide)

/-- C7 counterexample: the claim's universal — the trial runner persists
every tracked quantity's raw result matrix — fails at `effect_oracle` in
`synthetic_high_dimension.py`: it is one of the five matrices `main`
allocates and fills (lines 109, 121) but is absent from the four
`np.savetxt` calls (lines 133-136). -/
theorem C7_effect_oracle_tracked_but_never_saved :
    "effect_oracle" ∈ SynHigh.tracked_quantities ∧
    "effect_oracle" ∉ SynHigh.saved_quantities := by decide

/-- C7 (amended): after all trial cells are filled, every matrix the trial
runner does persist is written as a comma-separated file with no header row
holding exactly that quantity's `(num_repetitions × grid length)` result
matrix (line `r`, entry `i` is the collaborator value for repetition `r`
and grid index `i`); `syn-entner.py` persists all three of its tracked
quantities, while `synthetic_high_dimension.py` persists only four of its
five — every saved quantity is tracked, but `effect_oracle` is tracked and
never written. -/
theorem C7_saved_files_hold_result_matrices :
    (∀ (nr g : ℕ) (cell : ℕ → ℕ → ℚ),
      savetxtLines (runTrials nr g cell)
        = (List.range nr).map (fun r => (List.range g).map (fun i => cell r i))
      ∧ (savetxtLines (runTrials nr g cell)).length = nr) ∧
    SynEntner.saved_quantities = SynEntner.tracked_quantities ∧
    SynHigh.saved_quantities.all
      (fun q => SynHigh.tracked_quantities.contains q) = true ∧
    SynHigh.saved_quantities.length + 1
      = SynHigh.tracked_quantities.length := by
  refine ⟨?_, rfl, by decide, by decide⟩
  intro nr g cell
  have hmain : savetxtLines (runTrials nr g cell)
      = (List.range nr).map
        (fun r => (List.range g).map (fun i => cell r i)) := by
    unfold savetxtLines runTrials
    rw [fillOuter_rows, fillOuter_cols]
    apply List.map_congr_left
    intro r hr
    apply List.map_congr_left
    intro c hc
    rw [fillOuter_entry]
    simp [List.mem_range.mp hr, List.mem_range.mp hc]
  refine ⟨hmain, ?_⟩
  rw [hmain]
  simp

end Trial

/-- C8: the data-generation core is shared across both scripts: `get_u`,
`get_theta`, `get_data` and `get_train_test_data` of `syn-entner.py`
compute, for all arguments and identical random-stream states (the explicit
draw oracles), the same functions as the functions of the same names in
`synthetic_high_dimension.py`. -/
theorem C8_scripts_share_data_generation_core :
    SynEntner.get_u = SynHigh.get_u ∧
    SynEntner.get_theta = SynHigh.get_theta ∧
    SynEntner.get_data = SynHigh.get_data ∧
    SynEntner.get_train_test_data = SynHigh.get_train_test_data :=
  ⟨rfl, rfl, rfl, rfl⟩

example : Np.uniformE (-1) (-2) (1/4) = -5/4 := by norm_num [Np.uniformE]
example : Np.pickIdx 3 (fun _ => 1/3) (1/2) = 1 := by norm_num [Np.pickIdx]
example : Np.choiceOK 3 3 (fun _ => 1/3) = true := by
  norm_num [Np.choiceOK, Finset.sum_range_succ]
example : Np.choiceOK 2 3 (fun _ => 1/3) = false := by
  norm_num [Np.choiceOK, Finset.sum_range_succ]
example : Np.round6 (25/10000000) = 2/1000000 := by
  norm_num [Np.round6, Np.roundHalfEven]
example : Np.testCount 10 = 2 := by
  have h : (⌈((10:ℕ):ℚ) * (1/5)⌉) = 2 := by rw [Int.ceil_eq_iff] <;> norm_num
  unfold Np.testCount
  rw [h]
  rfl
example : Np.testCount 9 = 2 := by
  have h : (⌈((9:ℕ):ℚ) * (1/5)⌉) = 2 := by rw [Int.ceil_eq_iff] <;> norm_num
  unfold Np.testCount
  rw [h]
  rfl
